import Mathlib

/-!
Verification development for the OpenDify gateway (`src/main.py`).

The Python source is shallowly embedded: text is `List Char` (Python `str`
is a sequence of Unicode code points), byte strings are `List Nat` with
every element `< 256`, Python exceptions are `Except Unit` / `Option`
results, and the streaming generator is an explicit state machine over a
list of parsed upstream events.  Library calls (`base64.b64encode`,
`base64.b64decode`, `str.encode('utf-8')`, `bytes.decode('utf-8')`) are
modelled by their documented semantics.
-/

set_option maxRecDepth 4000

deriving instance DecidableEq for Except

namespace OpenDify

/-- Text: a Python `str` as a list of Unicode code points. -/
abbrev Str := List Char

/-- Python truthiness of an optional string (`None` and `""` are falsy). -/
def pyTruthy : Option Str → Bool
  | none => false
  | some s => !s.isEmpty

/-! UTF-8 (models Python `str.encode('utf-8')` / `bytes.decode('utf-8')`) -/

/-- UTF-8 bytes of one code point (`str.encode` of a single character). -/
def utf8EncodeChar (c : Char) : List Nat :=
  let n := c.toNat
  if n < 0x80 then [n]
  else if n < 0x800 then [0xC0 + n / 64, 0x80 + n % 64]
  else if n < 0x10000 then [0xE0 + n / 4096, 0x80 + n / 64 % 64, 0x80 + n % 64]
  else [0xF0 + n / 262144, 0x80 + n / 4096 % 64, 0x80 + n / 64 % 64, 0x80 + n % 64]

/-- `s.encode('utf-8')`. -/
def utf8Encode (s : Str) : List Nat := s.flatMap utf8EncodeChar

/-- Whether `b` is a UTF-8 continuation byte (`0x80..0xBF`). -/
def IsCont (b : Nat) : Prop := 0x80 ≤ b ∧ b < 0xC0

instance (b : Nat) : Decidable (IsCont b) := by unfold IsCont; infer_instance

/-- Strict UTF-8 decoding, `bytes.decode('utf-8')`: rejects truncated
sequences, stray continuation bytes, overlong forms, surrogates and values
above `U+10FFFF`, exactly as CPython does.  `none` models
`UnicodeDecodeError`. -/
def utf8Decode? : List Nat → Option Str
  | [] => some []
  | b :: rest =>
    if b < 0x80 then
      (utf8Decode? rest).map (Char.ofNat b :: ·)
    else if b < 0xC2 then none
    else
      match rest with
      | [] => none
      | b2 :: rest2 =>
        if b < 0xE0 then
          if IsCont b2 then
            (utf8Decode? rest2).map (Char.ofNat ((b - 0xC0) * 64 + (b2 - 0x80)) :: ·)
          else none
        else
          match rest2 with
          | [] => none
          | b3 :: rest3 =>
            if b < 0xF0 then
              let v := (b - 0xE0) * 4096 + (b2 - 0x80) * 64 + (b3 - 0x80)
              if IsCont b2 ∧ IsCont b3 ∧ 0x800 ≤ v ∧ ¬(0xD800 ≤ v ∧ v < 0xE000) then
                (utf8Decode? rest3).map (Char.ofNat v :: ·)
              else none
            else
              match rest3 with
              | [] => none
              | b4 :: rest4 =>
                if b < 0xF5 then
                  let v := (b - 0xF0) * 262144 + (b2 - 0x80) * 4096 +
                    (b3 - 0x80) * 64 + (b4 - 0x80)
                  if IsCont b2 ∧ IsCont b3 ∧ IsCont b4 ∧ 0x10000 ≤ v ∧
                      v < 0x110000 then
                    (utf8Decode? rest4).map (Char.ofNat v :: ·)
                  else none
                else none

/-! Base64 (models Python `base64.b64encode` / `base64.b64decode`) -/

/-- The standard base64 alphabet, value → character.  This is both the table
used by `base64.b64encode` and the reconstruction chain in
`decode_conversation_id` (`main.py` lines 363-373). -/
def b64Char (v : Nat) : Char :=
  if v < 26 then Char.ofNat ('A'.toNat + v)
  else if v < 52 then Char.ofNat ('a'.toNat + (v - 26))
  else if v < 62 then Char.ofNat ('0'.toNat + (v - 52))
  else if v = 62 then '+'
  else '/'

/-- Character → 6-bit value, the `if c.isalpha() ...` chain of
`encode_conversation_id` (`main.py` lines 303-316); the padding character
`'='` (and anything else) maps to 0.  On alphabet characters this is the
standard base64 table, so it also serves as the table of `b64decode`. -/
def b64ValOfChar (c : Char) : Nat :=
  if c.isAlpha then
    (if c.isUpper then c.toNat - 'A'.toNat else c.toNat - 'a'.toNat + 26)
  else if c.isDigit then (c.toNat - '0'.toNat) + 52
  else if c = '+' then 62
  else if c = '/' then 63
  else 0

/-- `base64.b64encode`, on byte lists (groups of three bytes → four
characters, `'='`-padded). -/
def b64encode : List Nat → List Char
  | [] => []
  | [b1] => [b64Char (b1 / 4), b64Char (b1 % 4 * 16), '=', '=']
  | [b1, b2] => [b64Char (b1 / 4), b64Char (b1 % 4 * 16 + b2 / 16),
      b64Char (b2 % 16 * 4), '=']
  | b1 :: b2 :: b3 :: rest =>
    b64Char (b1 / 4) :: b64Char (b1 % 4 * 16 + b2 / 16) ::
      b64Char (b2 % 16 * 4 + b3 / 64) :: b64Char (b3 % 64) :: b64encode rest

/-- Decodes a run of base64 data characters (padding already stripped).
A trailing group of two characters yields one byte, of three characters two
bytes, exactly as `binascii.a2b_base64`. -/
def b64DecodeData : List Char → List Nat
  | c1 :: c2 :: c3 :: c4 :: rest =>
    (b64ValOfChar c1 * 4 + b64ValOfChar c2 / 16) ::
      (b64ValOfChar c2 % 16 * 16 + b64ValOfChar c3 / 4) ::
      (b64ValOfChar c3 % 4 * 64 + b64ValOfChar c4) :: b64DecodeData rest
  | [c1, c2, c3] =>
    [b64ValOfChar c1 * 4 + b64ValOfChar c2 / 16,
      b64ValOfChar c2 % 16 * 16 + b64ValOfChar c3 / 4]
  | [c1, c2] => [b64ValOfChar c1 * 4 + b64ValOfChar c2 / 16]
  | [_] => []
  | [] => []

/-- `base64.b64decode` on the inputs `decode_conversation_id` builds:
alphabet characters followed by trailing `'='` padding, total length a
multiple of four.  Python raises `binascii.Error` when the number of data
characters is congruent to 1 mod 4 (e.g. `b64decode("A===")`); that raise
is modelled as `none`. -/
def b64decodePy (cs : List Char) : Option (List Nat) :=
  let data := cs.filter (fun c => c ≠ '=')
  if data.length % 4 = 1 then none else some (b64DecodeData data)

/-! ConversationCodec (`encode_conversation_id` / `decode_conversation_id`) -/

/-- The `char_map` of `encode_conversation_id`: 3-bit digit → zero-width
glyph (`main.py` lines 289-298). -/
def zwGlyph (d : Nat) : Char :=
  if d = 0 then '\u200B'
  else if d = 1 then '\u200C'
  else if d = 2 then '\u200D'
  else if d = 3 then '\uFEFF'
  else if d = 4 then '\u2060'
  else if d = 5 then '\u180E'
  else if d = 6 then '\u2061'
  else '\u2062'

/-- The `char_to_val` map of `decode_conversation_id` (`main.py` lines
331-340): zero-width glyph → 3-bit digit, `none` for every other
character. -/
def zwVal (c : Char) : Option Nat :=
  if c = '\u200B' then some 0
  else if c = '\u200C' then some 1
  else if c = '\u200D' then some 2
  else if c = '\uFEFF' then some 3
  else if c = '\u2060' then some 4
  else if c = '\u180E' then some 5
  else if c = '\u2061' then some 6
  else if c = '\u2062' then some 7
  else none

/-- `encode_conversation_id` (`main.py` lines 278-325): base64-encode the
UTF-8 bytes of the id, then emit two glyphs (`val >> 3`, `val & 7`) per
base64 character, only the high glyph for `'='`. -/
def encode_conversation_id (conversation_id : Str) : Str :=
  if conversation_id = [] then []
  else
    (b64encode (utf8Encode conversation_id)).flatMap fun c =>
      let val := b64ValOfChar c
      zwGlyph (val / 8 % 8) :: (if c ≠ '=' then [zwGlyph (val % 8)] else [])

/-- Digit pairs → base64 characters (`main.py` lines 355-373): two 3-bit
digits recombine as `first << 3 | second`; a trailing unpaired digit
becomes `first << 3`. -/
def pairsToB64Chars : List Nat → List Char
  | d1 :: d2 :: rest => b64Char (d1 * 8 + d2) :: pairsToB64Chars rest
  | [d] => [b64Char (d * 8)]
  | [] => []

/-- `decode_conversation_id` (`main.py` lines 327-387): take the maximal
trailing run of zero-width glyphs, map the glyphs back to digits, rebuild
base64 characters, pad to a multiple of four with `'='`, base64-decode and
UTF-8-decode.  Every Python exception on the way (caught by the
`try/except` wrapping the whole body) is `none`. -/
def decode_conversation_id (content : Str) : Option Str :=
  let run := (content.reverse.takeWhile (fun c => (zwVal c).isSome)).reverse
  if run = [] then none
  else
    let chars := pairsToB64Chars (run.map (fun c => (zwVal c).getD 0))
    let padded :=
      chars ++ (if chars.length % 4 = 0 then [] else
        List.replicate (4 - chars.length % 4) '=')
    match b64decodePy padded with
    | none => none
    | some bytes => utf8Decode? bytes

/-! RequestTranslator (`transform_openai_to_dify`, `main.py` lines 115-199) -/

/-- One element of the OpenAI `messages` list: a JSON object whose `role`
and `content` keys may be absent (`msg.get(...)` then yields `None`). -/
structure Msg where
  role : Option Str := none
  content : Option Str := none
deriving DecidableEq, Repr

/-- The inbound OpenAI request: `.get("messages", [])`,
`.get("stream", False)`, `.get("user", "default_user")`. -/
structure OpenAIReq where
  messages : List Msg := []
  stream : Bool := false
  user : Option Str := none
deriving DecidableEq, Repr

/-- The outbound Dify request body (`inputs` is always the empty map and is
omitted).  History mode puts no `conversation_id` key in the dict; that and
the zero-width mode's `None` value are both `none`. -/
structure DifyReq where
  query : Str
  response_mode : Str
  conversation_id : Option Str := none
  user : Str
deriving DecidableEq, Repr

/-- Content of the first `system` message, `""` when there is none
(`main.py` lines 126-129). -/
def systemContent (messages : List Msg) : Str :=
  match messages.filter (fun m => m.role = some "system".data) with
  | [] => []
  | m :: _ => m.content.getD []

/-- `messages[-1]["content"] if messages and messages[-1].get("role") != "system" else ""`
(`main.py` lines 145 and 161).  Indexing a missing `content` key raises
`KeyError`, modelled as `.error`. -/
def lastUserQuery (messages : List Msg) : Except Unit Str :=
  match messages.getLast? with
  | none => .ok []
  | some m =>
    if m.role = some "system".data then .ok []
    else
      match m.content with
      | some c => .ok c
      | none => .error ()

/-- Loop body of the zero-width-mode scan: at each `assistant` message the
candidate is overwritten with `decode_conversation_id(content)` and the
loop breaks at the first truthy value. -/
def scanCidGo : List Msg → Option Str → Option Str
  | [], acc => acc
  | m :: rest, acc =>
    if m.role = some "assistant".data then
      let c := decode_conversation_id (m.content.getD [])
      if pyTruthy c then c else scanCidGo rest c
    else scanCidGo rest acc

/-- The zero-width-mode history scan (`main.py` lines 134-142): walk
`messages[:-1]` in reverse chronological order. -/
def scanConversationId (messages : List Msg) : Option Str :=
  if messages.length > 1 then scanCidGo messages.dropLast.reverse none
  else none

/-- History-mode transcript lines (`main.py` lines 165-180): one
`"role: content"` line per earlier message with truthy role and content,
with a `system:` line prepended when a system message exists and none
survived into the transcript. -/
def historyMessages (messages : List Msg) (system_content : Str) : List Str :=
  let base := messages.dropLast.filterMap fun m =>
    let role := m.role.getD []
    let content := m.content.getD []
    if role ≠ [] ∧ content ≠ [] then some (role ++ ": ".data ++ content)
    else none
  let has_system := messages.dropLast.any fun m =>
    m.role.getD [] = "system".data ∧ (m.content.getD []) ≠ []
  if system_content ≠ [] ∧ ¬ has_system then
    ("system: ".data ++ system_content) :: base
  else base

/-- Python `sep.join(xs)`. -/
def joinSep (sep : Str) : List Str → Str
  | [] => []
  | [x] => x
  | x :: xs => x ++ sep ++ joinSep sep xs

/-- `transform_openai_to_dify` (`main.py` lines 115-199), parametrised by
`CONVERSATION_MEMORY_MODE` (`mode = 2` is the zero-width strategy, any
other value the default history strategy).  `.error ()` models an uncaught
exception (the `KeyError` of `messages[-1]["content"]`); `.ok none` models
the Python `return None` for an unknown endpoint. -/
def transform_openai_to_dify (mode : Nat) (req : OpenAIReq) (endpoint : Str) :
    Except Unit (Option DifyReq) :=
  if endpoint = "/chat/completions".data then do
    let messages := req.messages
    let system_content := systemContent messages
    let response_mode : Str :=
      if req.stream then "streaming".data else "blocking".data
    let user := req.user.getD "default_user".data
    if mode = 2 then
      let conversation_id := scanConversationId messages
      let uq ← lastUserQuery messages
      let user_query :=
        if system_content ≠ [] ∧ ¬ pyTruthy conversation_id then
          "系统指令: ".data ++ system_content ++ "\n\n用户问题: ".data ++ uq
        else uq
      pure (some { query := user_query, response_mode, conversation_id, user })
    else
      let uq ← lastUserQuery messages
      let user_query :=
        if messages.length > 1 then
          let hist := historyMessages messages system_content
          if hist ≠ [] then
            "<history>\n".data ++ joinSep "\n\n".data hist ++
              "\n</history>\n\n用户当前问题: ".data ++ uq
          else uq
        else if system_content ≠ [] then
          "系统指令: ".data ++ system_content ++ "\n\n用户问题: ".data ++ uq
        else uq
      pure (some { query := user_query, response_mode, user })
  else pure none

/-! Streaming pipeline (`generate`, `main.py` lines 466-674) -/

/-- A parsed upstream SSE event (`dify_chunk`), restricted to the JSON
fields the generator reads.  `answer = none` models an absent `answer` key
(the `"answer" in dify_chunk` test); `message_id = none` an absent key
(`.get("message_id", "")`); `conversation_id = none` the
`.get("conversation_id")` default. -/
structure Chunk where
  event : Option Str := none
  answer : Option Str := none
  message_id : Option Str := none
  conversation_id : Option Str := none
  conversation_history : List Msg := []
deriving DecidableEq, Repr

/-- A downstream SSE item: `content` is one `send_char` chunk (a delta
holding one character, null `finish_reason`); `stop` is the final chunk
(empty delta, `finish_reason` `"stop"`); `done` is the literal
`data: [DONE]` line.  The id field carries `generate.message_id`, which is
Python `None` (`none`) when no event ever set it. -/
inductive OutChunk where
  | content (id : Option Str) (char : Char)
  | stop (id : Option Str)
  | done
deriving DecidableEq, Repr

/-- Generator state: `generate.message_id` (initially `None`) and
`output_buffer` (pairs of character and the message id recorded when the
character was appended). -/
structure GenState where
  message_id : Option Str := none
  buffer : List (Char × Str) := []
deriving DecidableEq, Repr

/-- `calculate_delay` (`main.py` lines 473-485) in milliseconds:
`0.001 s → 1`, `0.002 → 2`, `0.01 → 10`, `0.02 → 20`. -/
def calculate_delay (buffer_size : Nat) : Nat :=
  if buffer_size > 30 then 1
  else if buffer_size > 20 then 2
  else if buffer_size > 10 then 10
  else 20

/-- The constant `time.sleep(0.001)` used while flushing the remaining
buffer on `message_end` (`main.py` line 627), in milliseconds. -/
def message_end_flush_delay : Nat := 1

/-- The drain loop `while output_buffer: char, msg_id = output_buffer.pop(0);
yield send_char(char, msg_id)`: one `content` chunk per buffered character,
in FIFO order. -/
def drainBuffer (buf : List (Char × Str)) : List OutChunk :=
  buf.map fun p => OutChunk.content (some p.2) p.1

/-- One iteration of the generator's event dispatch (`main.py` lines
541-663): the new state and the downstream chunks yielded for one parsed
upstream chunk.  The `message` and `agent_message` branches of the source
are character-for-character identical and are merged here.  Sleeps are not
modelled (their durations are `calculate_delay` and
`message_end_flush_delay`); the yielded chunk sequence is. -/
def stepChunk (mode : Nat) (s : GenState) (c : Chunk) : GenState × List OutChunk :=
  if (c.event = some "message".data ∨ c.event = some "agent_message".data) ∧
      c.answer.isSome then
    match c.answer with
    | some a =>
      if a = [] then (s, [])
      else
        let mid :=
          if pyTruthy s.message_id then s.message_id
          else some (c.message_id.getD [])
        let buf := s.buffer ++ a.map fun ch => (ch, mid.getD [])
        ({ message_id := mid, buffer := [] }, drainBuffer buf)
    | none => (s, [])
  else if c.event = some "agent_thought".data then
    let mid0 := c.message_id.getD []
    if ¬ pyTruthy s.message_id ∧ mid0 ≠ [] then
      ({ s with message_id := some mid0 }, [])
    else (s, [])
  else if c.event = some "message_file".data then (s, [])
  else if c.event = some "message_end".data then
    let flushed := drainBuffer s.buffer
    let injected :=
      if mode = 2 then
        let cid := c.conversation_id
        let has := c.conversation_history.any fun m =>
          m.role = some "assistant".data ∧
            (decode_conversation_id (m.content.getD [])).isSome
        if pyTruthy cid ∧ ¬ has then
          (encode_conversation_id (cid.getD [])).map fun ch =>
            OutChunk.content s.message_id ch
        else []
      else []
    ({ s with buffer := [] },
      flushed ++ injected ++ [OutChunk.stop s.message_id, OutChunk.done])
  else (s, [])

/-- Run the generator over a list of parsed upstream events, collecting the
downstream chunks in order. -/
def runChunks (mode : Nat) (s : GenState) : List Chunk → GenState × List OutChunk
  | [] => (s, [])
  | c :: cs =>
    let p := stepChunk mode s c
    let q := runChunks mode p.1 cs
    (q.1, p.2 ++ q.2)

/-! Incremental line splitting (`main.py` lines 521-539) -/

/-- All complete `\n`-terminated lines of a text, with the unterminated
remainder — the effect of the repeated `line, buffer = buffer.split('\n', 1)`
loop on one buffer. -/
def drainLines : Str → List Str × Str
  | [] => ([], [])
  | ch :: cs =>
    let p := drainLines cs
    if ch = '\n' then ([] :: p.1, p.2)
    else
      match p.1 with
      | [] => ([], ch :: p.2)
      | l :: ls => ((ch :: l) :: ls, p.2)

/-- The incremental loop at text level: append each inbound chunk to the
retained buffer and extract every complete line
(`buffer += raw_bytes.decode('utf-8')` then the `while '\n' in buffer`
loop). -/
def feedChunks (buf : Str) : List Str → List Str
  | [] => []
  | c :: cs =>
    let p := drainLines (buf ++ c)
    p.1 ++ feedChunks p.2 cs

/-- Python `str.strip()` whitespace (the ASCII whitespace characters, the
ones that occur on SSE lines). -/
def isPySpace (c : Char) : Bool :=
  c = ' ' || c = '\t' || c = '\n' || c = '\r' || c = '\x0B' || c = '\x0C'

/-- `line.strip()`. -/
def pyStrip (s : Str) : Str :=
  ((s.dropWhile isPySpace).reverse.dropWhile isPySpace).reverse

/-- Line filtering (`main.py` lines 532-538): strip the line, discard it
when empty or without the `data: ` marker, otherwise hand `line[6:]` to
`json.loads`.  The returned payload string fully determines the parsed
event record. -/
def dataPayload (line : Str) : Option Str :=
  let t := pyStrip line
  if t.take 6 = "data: ".data then some (t.drop 6) else none

/-- The sequence of `data:` payloads produced from a partitioned text
stream. -/
def eventPayloads (chunks : List Str) : List Str :=
  (feedChunks [] chunks).filterMap dataPayload

/-- The loop at byte level: each raw chunk is decoded by
`raw_bytes.decode('utf-8')` inside the per-chunk `try`; a chunk whose
decode raises `UnicodeDecodeError` is skipped entirely
(`except Exception ... continue`, `main.py` lines 527-528 and 669-671),
leaving the buffer unchanged. -/
def feedBytesLines (buf : Str) : List (List Nat) → List Str
  | [] => []
  | bc :: rest =>
    match utf8Decode? bc with
    | none => feedBytesLines buf rest
    | some s =>
      let p := drainLines (buf ++ s)
      p.1 ++ feedBytesLines p.2 rest

/-- `data:` payloads from raw byte chunks. -/
def byteEventPayloads (chunks : List (List Nat)) : List Str :=
  (feedBytesLines [] chunks).filterMap dataPayload

/-! Non-streaming response path (`main.py` lines 201-257 and 689-736) -/

/-- One entry of `agent_thoughts`. -/
structure Thought where
  thought : Option Str := none
deriving DecidableEq, Repr

/-- The upstream blocking-mode JSON response, restricted to the fields the
gateway reads.  `answer`/`agent_thoughts` are `none` when the key is
absent. -/
structure DifyResponse where
  answer : Option Str := none
  agent_thoughts : Option (List Thought) := none
  conversation_id : Option Str := none
  conversation_history : List Msg := []
  message_id : Str := []
deriving DecidableEq, Repr

/-- Answer extraction (`main.py` lines 205-220): the `answer` field when
that key is present, else the last truthy `thought` of `agent_thoughts`. -/
def extractAnswer (r : DifyResponse) : Str :=
  match r.answer with
  | some a => a
  | none =>
    match r.agent_thoughts with
    | some ts =>
      ts.foldl (fun acc t => if pyTruthy t.thought then t.thought.getD [] else acc) []
    | none => []

/-- The non-streaming OpenAI-format body built by `transform_dify_to_openai`
(the `id` and the single choice's `content`; the constant envelope fields
are omitted). -/
structure OpenAIResponse where
  id : Str
  content : Str
deriving DecidableEq, Repr

/-- `transform_dify_to_openai` (`main.py` lines 201-257), non-streaming
branch, parametrised by `CONVERSATION_MEMORY_MODE`. -/
def transform_dify_to_openai (mode : Nat) (r : DifyResponse) : OpenAIResponse :=
  let answer := extractAnswer r
  let answer :=
    if mode = 2 then
      let conversation_id := r.conversation_id.getD []
      let has := r.conversation_history.any fun m =>
        m.role = some "assistant".data ∧
          (decode_conversation_id (m.content.getD [])).isSome
      if conversation_id ≠ [] ∧ ¬ has then
        answer ++ encode_conversation_id conversation_id
      else answer
    else answer
  { id := r.message_id, content := answer }

/-- The non-streaming HTTP result: JSON body plus the optional
`Conversation-Id` response header. -/
structure SyncResult where
  body : OpenAIResponse
  conversation_id_header : Option Str := none
deriving DecidableEq, Repr

/-- The 200-status tail of `sync_response` (`main.py` lines 709-724):
transform the body, then attach a `Conversation-Id` header exactly when
`dify_response.get("conversation_id")` is truthy. -/
def sync_response (mode : Nat) (r : DifyResponse) : SyncResult :=
  let body := transform_dify_to_openai mode r
  if pyTruthy r.conversation_id then
    { body, conversation_id_header := r.conversation_id }
  else { body }

/-! C8: pacing monotonicity and bands -/

/-- C8: `calculate_delay` is non-increasing in the queue depth, takes
exactly the four constant bands `> 30`, `(20,30]`, `(10,20]`, `≤ 10` from
`main.py` lines 478-485, and the `message_end` flush (`main.py` line 627)
always sleeps the minimal of the four delays, whatever the depth. -/
theorem c8_pacing_monotone :
    (∀ d1 d2 : Nat, d1 ≤ d2 → calculate_delay d2 ≤ calculate_delay d1) ∧
    (∀ d : Nat, 30 < d → calculate_delay d = 1) ∧
    (∀ d : Nat, 20 < d → d ≤ 30 → calculate_delay d = 2) ∧
    (∀ d : Nat, 10 < d → d ≤ 20 → calculate_delay d = 10) ∧
    (∀ d : Nat, d ≤ 10 → calculate_delay d = 20) ∧
    message_end_flush_delay = 1 ∧
    (∀ d : Nat, message_end_flush_delay ≤ calculate_delay d) := by
  refine ⟨fun d1 d2 h => ?_, fun d h => ?_, fun d h h' => ?_, fun d h h' => ?_,
    fun d h => ?_, rfl, fun d => ?_⟩ <;>
    simp only [calculate_delay, message_end_flush_delay] <;> split_ifs <;> omega

/-- Witness for `c8_pacing_monotone` at concrete depths. -/
theorem c8_pacing_monotone_witness :
    calculate_delay 35 ≤ calculate_delay 5 ∧ calculate_delay 31 = 1 ∧
    calculate_delay 25 = 2 ∧ calculate_delay 15 = 10 ∧ calculate_delay 5 = 20 ∧
    message_end_flush_delay ≤ calculate_delay 0 :=
  ⟨c8_pacing_monotone.1 5 35 (by decide), c8_pacing_monotone.2.1 31 (by decide),
    c8_pacing_monotone.2.2.1 25 (by decide) (by decide),
    c8_pacing_monotone.2.2.2.1 15 (by decide) (by decide),
    c8_pacing_monotone.2.2.2.2.1 5 (by decide),
    c8_pacing_monotone.2.2.2.2.2.2 0⟩

/-! C10: `Conversation-Id` response header -/

/-- C10: On the non-streaming 200 path, a truthy upstream
`conversation_id` becomes a `Conversation-Id` response header with exactly
that value, in every memory mode; an absent or empty one adds no header
(`main.py` lines 713-724). -/
theorem c10_conversation_id_header :
    (∀ (mode : Nat) (r : DifyResponse) (cid : Str),
      r.conversation_id = some cid → cid ≠ [] →
      (sync_response mode r).conversation_id_header = some cid) ∧
    (∀ (mode : Nat) (r : DifyResponse),
      r.conversation_id = none ∨ r.conversation_id = some [] →
      (sync_response mode r).conversation_id_header = none) := by
  constructor
  · intro mode r cid hc hne
    simp [sync_response, pyTruthy, hc, hne]
  · intro mode r h
    rcases h with h | h <;> simp [sync_response, pyTruthy, h]

/-- Witness for `c10_conversation_id_header`: a response carrying
`conversation_id = "c9"` gets the header, one carrying `""` does not. -/
theorem c10_conversation_id_header_witness :
    (sync_response 1 { conversation_id := some "c9".data }).conversation_id_header =
      some "c9".data ∧
    (sync_response 2 { conversation_id := some [] }).conversation_id_header = none :=
  ⟨c10_conversation_id_header.1 1 { conversation_id := some "c9".data } "c9".data
      rfl (by decide),
    c10_conversation_id_header.2 2 { conversation_id := some [] } (Or.inr rfl)⟩

/-! C6: decode is total and tail-only -/

/-- C6: `decode_conversation_id` is a total function into
`Option Str` — every Python exception inside its `try` body is modelled as
`none`, so it never raises past its boundary — and it is tail-only: it
yields `none` on the empty text and on any text whose final character is
not one of the eight invisible-alphabet glyphs, which covers both texts
with no trailing glyph run and texts whose glyph run is followed by a
visible character before the end. -/
theorem c6_decode_tail_only :
    decode_conversation_id [] = none ∧
    ∀ (l : Str) (c : Char), zwVal c = none →
      decode_conversation_id (l ++ [c]) = none := by
  refine ⟨by decide, fun l c h => ?_⟩
  simp [decode_conversation_id, List.reverse_append, List.takeWhile_cons, h]

/-- Witness for `c6_decode_tail_only`: visible text decodes to nothing. -/
theorem c6_decode_tail_only_witness :
    decode_conversation_id ("ab".data ++ ['c']) = none :=
  c6_decode_tail_only.2 "ab".data 'c' (by decide)

/-! C2: totality of the request translator -/

/-- C2 counterexample: The translator is not total: a request whose
last message has a role but no `content` key makes
`messages[-1]["content"]` (`main.py` lines 145 and 161) raise `KeyError`
in both memory modes, so no `UpstreamRequest` is returned. -/
theorem c2_counterexample :
    transform_openai_to_dify 1 { messages := [{ role := some "user".data }] }
      "/chat/completions".data = .error () ∧
    transform_openai_to_dify 2 { messages := [{ role := some "user".data }] }
      "/chat/completions".data = .error () := by decide

/-- `messages[-1]["content"]` succeeds when there is no last message, when
the last message is a system message, or when it has a `content` key. -/
theorem lastUserQuery_ok (messages : List Msg)
    (h : messages = [] ∨ ∃ m, messages.getLast? = some m ∧
      (m.role = some "system".data ∨ m.content.isSome)) :
    ∃ q, lastUserQuery messages = .ok q := by
  unfold lastUserQuery
  rcases h with h | ⟨m, hm, hc⟩
  · subst h; exact ⟨[], rfl⟩
  · rw [hm]
    by_cases hs : m.role = some "system".data
    · exact ⟨[], by simp [hs]⟩
    · rcases hc with hc | hc
      · exact absurd hc hs
      · obtain ⟨c, hcc⟩ := Option.isSome_iff_exists.mp hc
        exact ⟨c, by simp [hs, hcc]⟩

/-- C2 amended: The translator never raises and always returns an
`UpstreamRequest` — in either memory mode, with every absent field
defaulting — provided the last message (when one exists and is not a
system message) carries a `content` key; `c2_counterexample` shows the
proviso cannot be dropped. -/
theorem c2_translator_total_amended :
    ∀ (mode : Nat) (req : OpenAIReq),
      (req.messages = [] ∨ ∃ m, req.messages.getLast? = some m ∧
        (m.role = some "system".data ∨ m.content.isSome)) →
      transform_openai_to_dify mode req "/chat/completions".data ≠ .error () ∧
      transform_openai_to_dify mode req "/chat/completions".data ≠ .ok none := by
  intro mode req h
  obtain ⟨q, hq⟩ := lastUserQuery_ok req.messages h
  unfold transform_openai_to_dify
  rw [if_pos rfl]
  by_cases hm : mode = 2 <;>
    simp [hm, hq, Except.bind, bind, pure, Except.pure]

/-- Witness for `c2_translator_total_amended`: the empty request. -/
theorem c2_translator_total_amended_witness :
    transform_openai_to_dify 1 {} "/chat/completions".data ≠ .error () ∧
    transform_openai_to_dify 1 {} "/chat/completions".data ≠ .ok none :=
  c2_translator_total_amended 1 {} (Or.inl rfl)

/-! C5: a system-only request -/

/-- C5 counterexample: A request holding only a system message does
not yield an empty query: in both memory modes the translator wraps the
system content in the first-turn framing
`"系统指令: <content>\n\n用户问题: "` (`main.py` lines 148-149 and
186-187), which is non-empty. -/
theorem c5_counterexample :
    transform_openai_to_dify 1
      { messages := [{ role := some "system".data, content := some "be terse".data }] }
      "/chat/completions".data =
      .ok (some
        { query := "系统指令: be terse\n\n用户问题: ".data,
          response_mode := "blocking".data, user := "default_user".data }) ∧
    transform_openai_to_dify 2
      { messages := [{ role := some "system".data, content := some "be terse".data }] }
      "/chat/completions".data =
      .ok (some
        { query := "系统指令: be terse\n\n用户问题: ".data,
          response_mode := "blocking".data, user := "default_user".data }) ∧
    "系统指令: be terse\n\n用户问题: ".data ≠ ([] : Str) := by decide

/-- C5 amended: A request whose messages consist of a single system
message raises no error in either memory mode; its query is the empty
string only when the system content is empty, and otherwise is the
first-turn framing of the system content with an empty user question. -/
theorem c5_system_only_amended :
    ∀ (mode : Nat) (st : Bool) (u : Option Str) (m : Msg),
      m.role = some "system".data →
      transform_openai_to_dify mode { messages := [m], stream := st, user := u }
        "/chat/completions".data =
      .ok (some
        { query :=
            if m.content.getD [] = [] then []
            else "系统指令: ".data ++ m.content.getD [] ++ "\n\n用户问题: ".data,
          response_mode := if st then "streaming".data else "blocking".data,
          conversation_id := none,
          user := u.getD "default_user".data }) := by
  intro mode st u m hr
  have hsc : systemContent [m] = m.content.getD [] := by
    simp [systemContent, hr]
  have hq : lastUserQuery [m] = .ok [] := by
    simp [lastUserQuery, hr]
  unfold transform_openai_to_dify
  rw [if_pos rfl]
  by_cases hm : mode = 2 <;>
    by_cases hc : m.content.getD [] = [] <;>
      simp [hm, hq, hsc, hc, scanConversationId, historyMessages, pyTruthy,
        Except.bind, bind, pure, Except.pure]

/-- Witness for `c5_system_only_amended`: the concrete system-only request
with content `"be terse"`. -/
theorem c5_system_only_amended_witness :
    transform_openai_to_dify 1
      { messages := [{ role := some "system".data, content := some "be terse".data }] }
      "/chat/completions".data =
    .ok (some
      { query :=
          if (some "be terse".data).getD [] = [] then []
          else "系统指令: ".data ++ (some "be terse".data).getD [] ++
            "\n\n用户问题: ".data,
        response_mode := if false then "streaming".data else "blocking".data,
        conversation_id := none,
        user := (none : Option Str).getD "default_user".data }) :=
  c5_system_only_amended 1 false none
    { role := some "system".data, content := some "be terse".data } rfl

/-! C3: end-to-end streaming of two events -/

/-- C3: Under the zero-width memory mode, the two-event upstream
sequence `message{answer:"Hi"}` then `message_end{conversation_id:"s1"}`
with empty `conversation_history` yields exactly: the delta chunks `'H'`
and `'i'` in order, then one chunk per glyph of
`encode_conversation_id("s1")`, then a single chunk with empty delta and
finish reason `stop`, then the single `data: [DONE]` line, and nothing
after it (`main.py` lines 541-563 and 622-663). -/
theorem c3_streaming_two_events :
    (runChunks 2 {}
      [{ event := some "message".data, answer := some "Hi".data },
       { event := some "message_end".data, conversation_id := some "s1".data }]).2 =
    [OutChunk.content (some []) 'H', OutChunk.content (some []) 'i'] ++
      (encode_conversation_id "s1".data).map (OutChunk.content (some [])) ++
      [OutChunk.stop (some []), OutChunk.done] := by decide

/-! C9: write-once `message_id` -/

/-- C9 counterexample: `message_id` is not immutable after its first
assignment by an answer-bearing event: a first `message` event that carries
no `message_id` assigns the empty string (`main.py` lines 546-548), which
is still falsy, so a later answer-bearing event reporting `"m2"`
overwrites it. -/
theorem c9_counterexample :
    (runChunks 1 {}
      [{ event := some "message".data, answer := some "a".data }]).1.message_id =
      some [] ∧
    (runChunks 1 {}
      [{ event := some "message".data, answer := some "a".data },
       { event := some "message".data, answer := some "b".data,
         message_id := some "m2".data }]).1.message_id = some "m2".data ∧
    some "m2".data ≠ some ([] : Str) := by decide

/-- A single dispatch step never changes a truthy `message_id`. -/
theorem stepChunk_message_id_stable (mode : Nat) (s : GenState) (c : Chunk)
    (h : pyTruthy s.message_id = true) :
    (stepChunk mode s c).1.message_id = s.message_id := by
  by_cases h1 : (c.event = some "message".data ∨ c.event = some "agent_message".data) ∧
      c.answer.isSome
  · rcases hc : c.answer with _ | a
    · simp [hc] at h1
    · by_cases ha : a = [] <;> simp [stepChunk, h1, hc, ha, h]
  · by_cases h2 : c.event = some "agent_thought".data
    · simp [stepChunk, h1, h2, h]
    · by_cases h3 : c.event = some "message_file".data
      · simp [stepChunk, h1, h2, h3]
      · by_cases h4 : c.event = some "message_end".data <;>
          simp [stepChunk, h1, h2, h3, h4]

/-- C9 amended: Once `message_id` holds a truthy (non-empty) value —
assigned by the first answer-bearing `message`/`agent_message` event that
reports a non-empty id, possibly seeded earlier by an `agent_thought` —
every later upstream event leaves it unchanged, even if it reports a
different id.  (An answer-bearing event reporting an empty id does assign,
but the empty value stays falsy and may be overwritten later, as
`c9_counterexample` shows.) -/
theorem c9_message_id_stable_amended :
    ∀ (mode : Nat) (cs : List Chunk) (s : GenState),
      pyTruthy s.message_id = true →
      (runChunks mode s cs).1.message_id = s.message_id := by
  intro mode cs
  induction cs with
  | nil => intro s h; rfl
  | cons c rest ih =>
    intro s h
    have hstep := stepChunk_message_id_stable mode s c h
    simp only [runChunks]
    rw [ih (stepChunk mode s c).1 (by rw [hstep]; exact h), hstep]

/-- Witness for `c9_message_id_stable_amended`: a state that already holds
`"m1"` is unchanged by an answer-bearing event reporting `"m2"`. -/
theorem c9_message_id_stable_amended_witness :
    (runChunks 1 { message_id := some "m1".data }
      [{ event := some "message".data, answer := some "x".data,
         message_id := some "m2".data }]).1.message_id = some "m1".data :=
  c9_message_id_stable_amended 1
    [{ event := some "message".data, answer := some "x".data,
       message_id := some "m2".data }]
    { message_id := some "m1".data } (by decide)

/-! C7: Strategy-B continuity recovery -/

/-- The reverse scan reaches the first assistant message whose content
decodes to a truthy id, skipping assistant messages with falsy decodes and
all non-assistant messages, whatever the accumulator holds. -/
theorem scanCidGo_reaches (l : List Msg) (m : Msg) (rest : List Msg)
    (hm : m.role = some "assistant".data)
    (hd : pyTruthy (decode_conversation_id (m.content.getD [])) = true)
    (hl : ∀ x ∈ l, x.role = some "assistant".data →
      pyTruthy (decode_conversation_id (x.content.getD [])) = false) :
    ∀ acc, scanCidGo (l ++ m :: rest) acc =
      decode_conversation_id (m.content.getD []) := by
  induction l with
  | nil =>
    intro acc
    simp only [List.nil_append, scanCidGo]
    rw [if_pos hm, if_pos hd]
  | cons x xs ih =>
    intro acc
    simp only [List.cons_append, scanCidGo]
    by_cases hx : x.role = some "assistant".data
    · rw [if_pos hx]
      have hfx := hl x (List.mem_cons_self x xs) hx
      rw [if_neg (by simp [hfx])]
      exact ih (fun y hy hr => hl y (List.mem_cons_of_mem x hy) hr) _
    · rw [if_neg hx]
      exact ih (fun y hy hr => hl y (List.mem_cons_of_mem x hy) hr) _

/-- C7: Under the zero-width memory mode, a request containing a prior
assistant message decoding to `"abc123"`, with no later assistant message
decoding to a truthy id, is translated with `conversation_id = "abc123"`
and a query equal to the raw last-message content, with no
system-instruction framing added (`main.py` lines 133-158): the scan walks
prior assistant messages newest-first and stops at the first truthy
decode. -/
theorem c7_strategy_b_continuity :
    ∀ (pre post : List Msg) (m lastm : Msg) (st : Bool) (u : Option Str) (q : Str),
      m.role = some "assistant".data →
      decode_conversation_id (m.content.getD []) = some "abc123".data →
      (∀ m' ∈ post, m'.role = some "assistant".data →
        pyTruthy (decode_conversation_id (m'.content.getD [])) = false) →
      lastm.role ≠ some "system".data →
      lastm.content = some q →
      transform_openai_to_dify 2
        { messages := pre ++ m :: post ++ [lastm], stream := st, user := u }
        "/chat/completions".data =
      .ok (some
        { query := q,
          response_mode := if st then "streaming".data else "blocking".data,
          conversation_id := some "abc123".data,
          user := u.getD "default_user".data }) := by
  intro pre post m lastm st u q hrole hdec hpost hlr hlc
  have hmsgs : pre ++ m :: post ++ [lastm] = (pre ++ m :: post) ++ [lastm] := by
    simp
  have htr : pyTruthy (some "abc123".data) = true := by decide
  have hscan : scanConversationId (pre ++ m :: post ++ [lastm]) =
      some "abc123".data := by
    unfold scanConversationId
    rw [if_pos (by simp; omega)]
    have hdrop : (pre ++ m :: post ++ [lastm]).dropLast = pre ++ m :: post := by
      rw [hmsgs]; exact List.dropLast_concat
    rw [hdrop]
    have hrev : (pre ++ m :: post).reverse = post.reverse ++ m :: pre.reverse := by
      simp
    rw [hrev, scanCidGo_reaches post.reverse m pre.reverse hrole
      (by rw [hdec]; exact htr)
      (fun x hx => hpost x (List.mem_reverse.mp hx)) none]
    exact hdec
  have hlast : lastUserQuery (pre ++ m :: post ++ [lastm]) = .ok q := by
    unfold lastUserQuery
    rw [hmsgs, List.getLast?_concat]
    simp [hlr, hlc]
  unfold transform_openai_to_dify
  rw [if_pos rfl]
  simp only [List.cons_append, List.append_assoc] at hscan hlast
  simp [hscan, hlast, htr, Except.bind, bind, pure, Except.pure]

/-- Witness for `c7_strategy_b_continuity`: a two-message history whose
assistant turn carries `encode_conversation_id("abc123")`. -/
theorem c7_strategy_b_continuity_witness :
    transform_openai_to_dify 2
      { messages :=
          [{ role := some "assistant".data,
             content := some (encode_conversation_id "abc123".data) },
           { role := some "user".data, content := some "hi".data }] }
      "/chat/completions".data =
    .ok (some
      { query := "hi".data,
        response_mode := if false then "streaming".data else "blocking".data,
        conversation_id := some "abc123".data,
        user := (none : Option Str).getD "default_user".data }) :=
  c7_strategy_b_continuity [] []
    { role := some "assistant".data,
      content := some (encode_conversation_id "abc123".data) }
    { role := some "user".data, content := some "hi".data }
    false none "hi".data rfl (by decide) (by simp) (by decide) rfl

/-! C4: chunking invariance of the incremental parser -/

/-- Splitting off a prefix: draining `a ++ b` yields the complete lines of
`a` followed by the lines obtained after prepending `a`'s unterminated
remainder to `b`, with the same final remainder. -/
theorem drainLines_append (a b : Str) :
    drainLines (a ++ b) =
      ((drainLines a).1 ++ (drainLines ((drainLines a).2 ++ b)).1,
        (drainLines ((drainLines a).2 ++ b)).2) := by
  induction a with
  | nil => simp [drainLines]
  | cons c cs ih =>
    by_cases hc : c = '\n'
    · subst hc
      simp [drainLines, ih]
    · rcases hA : (drainLines cs).1 with _ | ⟨l, ls⟩ <;>
        rcases hX : (drainLines ((drainLines cs).2 ++ b)).1 with _ | ⟨x, xs⟩ <;>
          simp [drainLines, ih, hA, hX, hc]

/-- Feeding any non-empty chunk partition through the incremental loop
extracts exactly the complete lines of the concatenated stream. -/
theorem feedChunks_eq (chunks : List Str) (h : chunks ≠ []) :
    ∀ buf, feedChunks buf chunks = (drainLines (buf ++ chunks.flatten)).1 := by
  induction chunks with
  | nil => exact absurd rfl h
  | cons c cs ih =>
    intro buf
    by_cases hcs : cs = []
    · subst hcs
      simp [feedChunks]
    · simp only [feedChunks]
      rw [ih hcs (drainLines (buf ++ c)).2]
      rw [List.flatten_cons, ← List.append_assoc,
        drainLines_append (buf ++ c) cs.flatten]

/-- C4 amended: The buffer-and-split loop is chunking-invariant at the
text level: any two partitions of the same character stream into non-empty
chunks produce the same sequence of `data:` payloads, hence the same
parsed event records and downstream output.  At the byte level this holds
exactly when every chunk of both partitions decodes as valid UTF-8 —
`c4_counterexample` shows a partition that splits a multi-byte character
makes the per-chunk `raw_bytes.decode('utf-8')` raise and the whole chunk
be dropped, changing the event sequence. -/
theorem c4_chunking_invariance_amended :
    ∀ (c1 c2 : List Str), c1 ≠ [] → c2 ≠ [] → c1.flatten = c2.flatten →
      eventPayloads c1 = eventPayloads c2 := by
  intro c1 c2 h1 h2 hj
  unfold eventPayloads
  rw [feedChunks_eq c1 h1 [], feedChunks_eq c2 h2 [], hj]

/-- Witness for `c4_chunking_invariance_amended`: two partitions of
`"data: x\n"`. -/
theorem c4_chunking_invariance_amended_witness :
    eventPayloads ["data: x\n".data] = eventPayloads ["data: ".data, "x\n".data] :=
  c4_chunking_invariance_amended ["data: x\n".data] ["data: ".data, "x\n".data]
    (by decide) (by decide) (by decide)

/-- C4 counterexample: The claim fails for arbitrary byte partitions:
the same byte stream — one well-formed `data:` event line whose JSON holds
the two-byte character `é` — yields one payload when fed whole, but no
payload at all when partitioned between the two bytes `0xC3 0xA9`, because
each half fails `raw_bytes.decode('utf-8')` and is dropped by the
`except ... continue` handler. -/
theorem c4_counterexample :
    utf8Encode "data: \x7b\"event\": \"message\", \"answer\": \"".data ++
        ([0xC3, 0xA9] ++ utf8Encode "\"\x7d\n".data) =
      (utf8Encode "data: \x7b\"event\": \"message\", \"answer\": \"".data ++ [0xC3]) ++
        ([0xA9] ++ utf8Encode "\"\x7d\n".data) ∧
    byteEventPayloads
        [utf8Encode "data: \x7b\"event\": \"message\", \"answer\": \"".data ++
          ([0xC3, 0xA9] ++ utf8Encode "\"\x7d\n".data)] ≠
      byteEventPayloads
        [utf8Encode "data: \x7b\"event\": \"message\", \"answer\": \"".data ++ [0xC3],
          [0xA9] ++ utf8Encode "\"\x7d\n".data] := by decide

/-! C1: codec round-trip -/

/-- Digit-to-glyph-to-digit: the two eight-entry tables invert each other. -/
theorem zwVal_zwGlyph (d : Nat) (h : d < 8) : zwVal (zwGlyph d) = some d := by
  interval_cases d <;> decide

/-- Every glyph the encoder can emit is in the decoder's alphabet. -/
theorem zwGlyph_mem_alphabet (d : Nat) : (zwVal (zwGlyph d)).isSome = true := by
  unfold zwGlyph
  split_ifs <;> decide

/-- The base64 table and the `if c.isalpha() ...` chain invert each other. -/
theorem b64ValOfChar_b64Char (v : Nat) (h : v < 64) :
    b64ValOfChar (b64Char v) = v := by
  interval_cases v <;> decide

/-- No base64 data character is the padding character. -/
theorem b64Char_ne_pad (v : Nat) (h : v < 64) : b64Char v ≠ '=' := by
  interval_cases v <;> decide

/-- When the byte count is a multiple of three, `b64encode` emits a
multiple of four characters. -/
theorem b64encode_length_mod (bs : List Nat) (h : bs.length % 3 = 0) :
    (b64encode bs).length % 4 = 0 := by
  induction bs using b64encode.induct with
  | case1 => rfl
  | case2 b1 => simp at h
  | case3 b1 b2 => simp at h
  | case4 b1 b2 b3 rest ih =>
    simp only [b64encode, List.length_cons]
    simp only [List.length_cons] at h
    omega

/-- When the byte count is a multiple of three, every character `b64encode`
emits is a data character `b64Char v` with `v < 64`. -/
theorem b64encode_mem (bs : List Nat) (hb : ∀ b ∈ bs, b < 256)
    (h : bs.length % 3 = 0) :
    ∀ c ∈ b64encode bs, ∃ v, v < 64 ∧ c = b64Char v := by
  induction bs using b64encode.induct with
  | case1 => simp [b64encode]
  | case2 b1 => simp at h
  | case3 b1 b2 => simp at h
  | case4 b1 b2 b3 rest ih =>
    have hb1 : b1 < 256 := hb b1 (by simp)
    have hb2 : b2 < 256 := hb b2 (by simp)
    have hb3 : b3 < 256 := hb b3 (by simp)
    simp only [List.length_cons] at h
    intro c hc
    simp only [b64encode, List.mem_cons] at hc
    rcases hc with rfl | rfl | rfl | rfl | hc
    · exact ⟨b1 / 4, by omega, rfl⟩
    · exact ⟨b1 % 4 * 16 + b2 / 16, by omega, rfl⟩
    · exact ⟨b2 % 16 * 4 + b3 / 64, by omega, rfl⟩
    · exact ⟨b3 % 64, by omega, rfl⟩
    · exact ih (fun b hb' => hb b (by simp [hb'])) (by omega) c hc

/-- Decoding inverts encoding on full three-byte groups. -/
theorem b64DecodeData_b64encode (bs : List Nat) (hb : ∀ b ∈ bs, b < 256)
    (h : bs.length % 3 = 0) :
    b64DecodeData (b64encode bs) = bs := by
  induction bs using b64encode.induct with
  | case1 => rfl
  | case2 b1 => simp at h
  | case3 b1 b2 => simp at h
  | case4 b1 b2 b3 rest ih =>
    have hb1 : b1 < 256 := hb b1 (by simp)
    have hb2 : b2 < 256 := hb b2 (by simp)
    have hb3 : b3 < 256 := hb b3 (by simp)
    simp only [List.length_cons] at h
    simp only [b64encode, b64DecodeData]
    rw [b64ValOfChar_b64Char (b1 / 4) (by omega),
      b64ValOfChar_b64Char (b1 % 4 * 16 + b2 / 16) (by omega),
      b64ValOfChar_b64Char (b2 % 16 * 4 + b3 / 64) (by omega),
      b64ValOfChar_b64Char (b3 % 64) (by omega),
      ih (fun b hb' => hb b (by simp [hb'])) (by omega)]
    have e1 : b1 / 4 * 4 + (b1 % 4 * 16 + b2 / 16) / 16 = b1 := by omega
    have e2 : (b1 % 4 * 16 + b2 / 16) % 16 * 16 + (b2 % 16 * 4 + b3 / 64) / 4 = b2 := by
      omega
    have e3 : (b2 % 16 * 4 + b3 / 64) % 4 * 64 + b3 % 64 = b3 := by omega
    rw [e1, e2, e3]

/-- `b64encode` of a non-empty byte list is non-empty. -/
theorem b64encode_ne_nil (bs : List Nat) (h : bs ≠ []) : b64encode bs ≠ [] := by
  match bs with
  | [] => exact absurd rfl h
  | [b1] => simp [b64encode]
  | [b1, b2] => simp [b64encode]
  | b1 :: b2 :: b3 :: rest => simp [b64encode]

/-- A single character's UTF-8 encoding is non-empty. -/
theorem utf8EncodeChar_ne_nil (c : Char) : utf8EncodeChar c ≠ [] := by
  simp only [utf8EncodeChar]
  split_ifs <;> simp

/-- UTF-8 encoding emits bytes. -/
theorem utf8EncodeChar_lt_256 (c : Char) : ∀ b ∈ utf8EncodeChar c, b < 256 := by
  have hv : Nat.isValidChar c.toNat := c.valid
  unfold Nat.isValidChar at hv
  simp only [utf8EncodeChar]
  split_ifs with h1 h2 h3 <;> simp [List.forall_mem_cons] <;>
    rcases hv with hv | ⟨hv1, hv2⟩ <;> omega

theorem utf8Encode_lt_256 (s : Str) : ∀ b ∈ utf8Encode s, b < 256 := by
  intro b hb
  obtain ⟨c, _, hbc⟩ := List.mem_flatMap.mp hb
  exact utf8EncodeChar_lt_256 c b hbc

/-- UTF-8 encoding of a non-empty text is non-empty. -/
theorem utf8Encode_ne_nil (s : Str) (h : s ≠ []) : utf8Encode s ≠ [] := by
  match s with
  | [] => exact absurd rfl h
  | c :: cs =>
    simp only [utf8Encode, List.flatMap_cons]
    intro he
    exact utf8EncodeChar_ne_nil c (List.append_eq_nil.mp he).1

/-- Decoding a character's UTF-8 bytes in front of any tail restores the
character and proceeds with the tail. -/
theorem utf8Decode_encodeChar (c : Char) (rest : List Nat) :
    utf8Decode? (utf8EncodeChar c ++ rest) = (utf8Decode? rest).map (c :: ·) := by
  have hv : Nat.isValidChar c.toNat := c.valid
  unfold Nat.isValidChar at hv
  by_cases h1 : c.toNat < 0x80
  · have e : utf8EncodeChar c = [c.toNat] := by
      simp only [utf8EncodeChar]
      rw [if_pos h1]
    rw [e]
    simp only [List.cons_append, List.nil_append]
    rw [utf8Decode?.eq_def]
    dsimp only
    rw [if_pos h1, Char.ofNat_toNat]
  · by_cases h2 : c.toNat < 0x800
    · have e : utf8EncodeChar c = [0xC0 + c.toNat / 64, 0x80 + c.toNat % 64] := by
        simp only [utf8EncodeChar]
        rw [if_neg h1, if_pos h2]
      rw [e]
      simp only [List.cons_append, List.nil_append]
      rw [utf8Decode?.eq_def]
      dsimp only
      rw [if_neg (by omega), if_neg (by omega), if_pos (by omega),
        if_pos (show IsCont (0x80 + c.toNat % 64) from ⟨by omega, by omega⟩)]
      have ev : (0xC0 + c.toNat / 64 - 0xC0) * 64 + (0x80 + c.toNat % 64 - 0x80) =
          c.toNat := by omega
      rw [ev, Char.ofNat_toNat]
    · by_cases h3 : c.toNat < 0x10000
      · have e : utf8EncodeChar c =
            [0xE0 + c.toNat / 4096, 0x80 + c.toNat / 64 % 64, 0x80 + c.toNat % 64] := by
          simp only [utf8EncodeChar]
          rw [if_neg h1, if_neg h2, if_pos h3]
        rw [e]
        simp only [List.cons_append, List.nil_append]
        rw [utf8Decode?.eq_def]
        dsimp only
        rw [if_neg (by omega), if_neg (by omega), if_neg (by omega),
          if_pos (by omega)]
        have ev : (0xE0 + c.toNat / 4096 - 0xE0) * 4096 +
            (0x80 + c.toNat / 64 % 64 - 0x80) * 64 + (0x80 + c.toNat % 64 - 0x80) =
            c.toNat := by omega
        rw [if_pos ?cond]
        case cond =>
          refine ⟨⟨by omega, by omega⟩, ⟨by omega, by omega⟩, by omega, ?_⟩
          rw [ev]
          rcases hv with hv | ⟨hv1, hv2⟩ <;> omega
        rw [ev, Char.ofNat_toNat]
      · have h4 : c.toNat < 0x110000 := by
          rcases hv with hv | ⟨hv1, hv2⟩ <;> omega
        have e : utf8EncodeChar c =
            [0xF0 + c.toNat / 262144, 0x80 + c.toNat / 4096 % 64,
              0x80 + c.toNat / 64 % 64, 0x80 + c.toNat % 64] := by
          simp only [utf8EncodeChar]
          rw [if_neg h1, if_neg h2, if_neg h3]
        rw [e]
        simp only [List.cons_append, List.nil_append]
        rw [utf8Decode?.eq_def]
        dsimp only
        rw [if_neg (by omega), if_neg (by omega), if_neg (by omega),
          if_neg (by omega), if_pos (by omega)]
        have ev : (0xF0 + c.toNat / 262144 - 0xF0) * 262144 +
            (0x80 + c.toNat / 4096 % 64 - 0x80) * 4096 +
            (0x80 + c.toNat / 64 % 64 - 0x80) * 64 + (0x80 + c.toNat % 64 - 0x80) =
            c.toNat := by omega
        rw [if_pos ?cond]
        case cond =>
          refine ⟨⟨by omega, by omega⟩, ⟨by omega, by omega⟩, ⟨by omega, by omega⟩,
            ?_, ?_⟩ <;> rw [ev] <;> omega
        rw [ev, Char.ofNat_toNat]

/-- UTF-8 round-trip: Python `s.encode('utf-8').decode('utf-8') == s`. -/
theorem utf8Decode_utf8Encode (s : Str) : utf8Decode? (utf8Encode s) = some s := by
  induction s with
  | nil => rfl
  | cons c cs ih =>
    simp only [utf8Encode, List.flatMap_cons]
    rw [show (cs.flatMap utf8EncodeChar) = utf8Encode cs from rfl,
      utf8Decode_encodeChar, ih]
    rfl

/-- With no padding character in sight, the encoder emits exactly two
glyphs per base64 character. -/
theorem encode_eq_pairs (id : Str) (hne : id ≠ [])
    (h : ∀ c ∈ b64encode (utf8Encode id), c ≠ '=') :
    encode_conversation_id id =
    (b64encode (utf8Encode id)).flatMap fun c =>
      [zwGlyph (b64ValOfChar c / 8 % 8), zwGlyph (b64ValOfChar c % 8)] := by
  unfold encode_conversation_id
  rw [if_neg hne]
  generalize b64encode (utf8Encode id) = cs at h ⊢
  induction cs with
  | nil => rfl
  | cons c cs ih =>
    simp only [List.flatMap_cons, List.cons_append, List.nil_append]
    rw [if_pos (h c (List.mem_cons_self c cs)),
      ih (fun x hx => h x (List.mem_cons_of_mem c hx))]
    rfl

/-- Every character the encoder emits is in the decoder's alphabet. -/
theorem pairs_glyphs_mem (cs : List Char) :
    ∀ x ∈ (cs.flatMap fun c =>
      [zwGlyph (b64ValOfChar c / 8 % 8), zwGlyph (b64ValOfChar c % 8)]),
      (zwVal x).isSome = true := by
  intro x hx
  obtain ⟨c, _, hxc⟩ := List.mem_flatMap.mp hx
  simp only [List.mem_cons, List.not_mem_nil, or_false] at hxc
  rcases hxc with rfl | rfl <;> exact zwGlyph_mem_alphabet _

/-- Mapping the glyphs back through the decoder's table restores the two
3-bit digits of every base64 character. -/
theorem pairs_digits (cs : List Char) :
    ((cs.flatMap fun c =>
      [zwGlyph (b64ValOfChar c / 8 % 8), zwGlyph (b64ValOfChar c % 8)]).map
        fun c => (zwVal c).getD 0) =
    cs.flatMap fun c => [b64ValOfChar c / 8 % 8, b64ValOfChar c % 8] := by
  induction cs with
  | nil => rfl
  | cons c cs ih =>
    simp only [List.flatMap_cons, List.cons_append, List.nil_append, List.map_cons]
    rw [zwVal_zwGlyph (b64ValOfChar c / 8 % 8) (by omega),
      zwVal_zwGlyph (b64ValOfChar c % 8) (by omega), ih]
    rfl

/-- Recombining the digit pairs restores the base64 characters. -/
theorem pairsToB64Chars_pairs (cs : List Char)
    (h : ∀ c ∈ cs, b64ValOfChar c < 64 ∧ b64Char (b64ValOfChar c) = c) :
    pairsToB64Chars (cs.flatMap fun c =>
      [b64ValOfChar c / 8 % 8, b64ValOfChar c % 8]) = cs := by
  induction cs with
  | nil => rfl
  | cons c cs ih =>
    obtain ⟨hv, hc⟩ := h c (List.mem_cons_self c cs)
    simp only [List.flatMap_cons, List.cons_append, List.nil_append]
    rw [pairsToB64Chars]
    have ed : b64ValOfChar c / 8 % 8 * 8 + b64ValOfChar c % 8 = b64ValOfChar c := by
      omega
    rw [ed, hc, ih (fun x hx => h x (List.mem_cons_of_mem c hx))]

/-- C1 counterexample: The round-trip law fails as stated: for the
one-byte id `"a"` the encoder emits only the high glyph of each padding
character, and the decoder turns that glyph back into `'A'` (six zero
bits), so `decode(encode("a"))` is `"a\x00"` — the id with a trailing NUL
— not `"a"`. -/
theorem c1_counterexample :
    decode_conversation_id (encode_conversation_id "a".data) =
      some ['a', Char.ofNat 0] ∧
    some ['a', Char.ofNat 0] ≠ some "a".data := by decide

/-- C1 amended: The codec round-trip holds for every non-empty id
whose UTF-8 encoding has byte length divisible by three (in particular for
36-character UUIDs, the ids the backend actually issues):
`decode(encode(id)) = id`.  For other lengths the decode appends one
trailing NUL, as `c1_counterexample` shows. -/
theorem c1_roundtrip_amended (id : Str) (hne : id ≠ [])
    (h3 : (utf8Encode id).length % 3 = 0) :
    decode_conversation_id (encode_conversation_id id) = some id := by
  have hb : ∀ b ∈ utf8Encode id, b < 256 := utf8Encode_lt_256 id
  have hmem : ∀ c ∈ b64encode (utf8Encode id), ∃ v, v < 64 ∧ c = b64Char v :=
    b64encode_mem _ hb h3
  have hnp : ∀ c ∈ b64encode (utf8Encode id), c ≠ '=' := by
    intro c hc
    obtain ⟨v, hv, rfl⟩ := hmem c hc
    exact b64Char_ne_pad v hv
  have hcv : ∀ c ∈ b64encode (utf8Encode id),
      b64ValOfChar c < 64 ∧ b64Char (b64ValOfChar c) = c := by
    intro c hc
    obtain ⟨v, hv, rfl⟩ := hmem c hc
    rw [b64ValOfChar_b64Char v hv]
    exact ⟨hv, rfl⟩
  have henc := encode_eq_pairs id hne hnp
  set glyphs := (b64encode (utf8Encode id)).flatMap fun c =>
    [zwGlyph (b64ValOfChar c / 8 % 8), zwGlyph (b64ValOfChar c % 8)] with hg
  have hrun : (glyphs.reverse.takeWhile fun c => (zwVal c).isSome).reverse =
      glyphs := by
    rw [List.takeWhile_eq_self_iff.mpr (fun x hx =>
      pairs_glyphs_mem _ x (List.mem_reverse.mp hx)), List.reverse_reverse]
  have hgne : glyphs ≠ [] := by
    rw [hg]
    have hcne : b64encode (utf8Encode id) ≠ [] :=
      b64encode_ne_nil _ (utf8Encode_ne_nil id hne)
    rcases he : b64encode (utf8Encode id) with _ | ⟨c, cs⟩
    · exact absurd he hcne
    · simp [List.flatMap_cons]
  have hlen4 : (b64encode (utf8Encode id)).length % 4 = 0 :=
    b64encode_length_mod _ h3
  have hchars : pairsToB64Chars (glyphs.map fun c => (zwVal c).getD 0) =
      b64encode (utf8Encode id) := by
    rw [hg, pairs_digits]
    exact pairsToB64Chars_pairs _ hcv
  rw [henc]
  unfold decode_conversation_id
  dsimp only
  rw [hrun, if_neg hgne, hchars, if_pos hlen4, List.append_nil]
  unfold b64decodePy
  dsimp only
  rw [List.filter_eq_self.mpr (fun c hc => decide_eq_true (hnp c hc)),
    if_neg (by omega), b64DecodeData_b64encode _ hb h3]
  exact utf8Decode_utf8Encode id

/-- Witness for `c1_roundtrip_amended`: the three-byte id `"abc"`. -/
theorem c1_roundtrip_amended_witness :
    "abc".data ≠ ([] : Str) ∧ (utf8Encode "abc".data).length % 3 = 0 ∧
    decode_conversation_id (encode_conversation_id "abc".data) =
      some "abc".data :=
  ⟨by decide, by decide, c1_roundtrip_amended "abc".data (by decide) (by decide)⟩

end OpenDify
